import Mathlib

/-!
Verification development for the two utility agents of this repository:
the financial chart helper (`visualization_agent.py`) and the Baidu web
search helper (`web_search_agent.py`).

The Python code is shallowly embedded:
* text is `List Char` (Python `str` iterates code points);
* Python `float` values are modelled exactly as rationals `ℚ` (every value
  the extractor produces comes from a decimal-digit string, and no claim
  depends on IEEE rounding);
* the two concrete regular expressions of `_parse_financial_data` are
  literal alternation + character-class patterns, translated to explicit
  scanning functions with Python's leftmost-match / non-overlapping
  `findall` semantics (greedy character classes never need to backtrack
  here because the separator, digit and unit alphabets are disjoint);
* Python `dict`s built by these functions are association lists in
  insertion order (all keys inserted by any one code path are distinct,
  so plain append agrees with `dict` assignment);
* exceptions are `Except`; external I/O (the HTTP GET, matplotlib,
  BeautifulSoup's element queries) is abstracted at the exact boundary
  where the repository's own logic starts, as noted at each definition.
-/

/-! ### Character classes used by the extractor's regular expressions -/

/-- Python `\s` (the whitespace characters relevant to this code base:
ASCII whitespace plus NBSP and the ideographic space). -/
def isPySpace (c : Char) : Bool :=
  c = ' ' || c = '\t' || c = '\n' || c = '\x0d' || c = '\x0b' || c = '\x0c' ||
  c = '\u0085' || c = ' ' || c = '　'

/-- The separator class `[：:\s]` of the label patterns. -/
def isSepChar (c : Char) : Bool :=
  c = '：' || c = ':' || isPySpace c

/-- The capture class `[\d\.]` (ASCII digits and the dot). -/
def isNumChar (c : Char) : Bool :=
  c.isDigit || c = '.'

/-- Case-insensitive match of the literal `alt` as a prefix of `s`
(Python `re.IGNORECASE`, ASCII case folding; CJK characters are fixed
points of lowercasing in both systems).  Returns the remaining suffix. -/
def ciStrip : List Char → List Char → Option (List Char)
  | [], s => some s
  | _ :: _, [] => none
  | a :: as, c :: cs => if a.toLower = c.toLower then ciStrip as cs else none

/-- Lowercase every character (Python `str.lower`, ASCII folding). -/
def lowerChars (s : List Char) : List Char :=
  s.map Char.toLower

/-- `needle.isPrefixOf hay` for character lists, by plain equality. -/
def startsWithChars : List Char → List Char → Bool
  | [], _ => true
  | _ :: _, [] => false
  | a :: as, b :: bs => a = b && startsWithChars as bs

/-- Python's substring test `needle in hay` (the empty needle matches). -/
def containsChars (needle : List Char) : List Char → Bool
  | [] => startsWithChars needle []
  | b :: bs => startsWithChars needle (b :: bs) || containsChars needle bs

/-! ### `_parse_financial_data` (visualization_agent.py, lines 257-329) -/

/-- Try the full label pattern `(alt₁|alt₂)[：:\s]*([\d\.]+)` anchored at
the head of `s`: Python's engine tries the label alternatives in order,
and the greedy separator run never has to backtrack because no separator
character is in `[\d\.]`.  Returns the second capture group. -/
def matchLabelAt (alts : List (List Char)) (s : List Char) : Option (List Char) :=
  alts.findSome? fun alt => do
    let rest ← ciStrip alt s
    let num := (rest.dropWhile isSepChar).takeWhile isNumChar
    if num = [] then none else some num

/-- `re.search` of one label pattern: the leftmost start position at which
the whole pattern matches wins. -/
def searchPattern (alts : List (List Char)) : List Char → Option (List Char)
  | [] => none
  | c :: rest =>
    match matchLabelAt alts (c :: rest) with
    | some g => some g
    | none => searchPattern alts rest

/-- The seven bilingual patterns of `_parse_financial_data`, in source
order, each with its canonical metric key. -/
def labelPatterns : List (List (List Char) × String) :=
  [(["营业收入".data, "Revenue".data], "Revenue"),
   (["净利润".data, "Net Profit".data], "Net Profit"),
   (["毛利率".data, "Gross Margin".data], "Gross Margin"),
   (["ROE".data, "净资产收益率".data], "ROE"),
   (["资产负债率".data, "Debt Ratio".data], "Debt Ratio"),
   (["总资产".data, "Total Assets".data], "Total Assets"),
   (["总负债".data, "Total Liabilities".data], "Total Liabilities")]

/-- Digit string to natural number (most significant first). -/
def natOfDigits (s : List Char) : ℕ :=
  s.foldl (fun a c => a * 10 + (c.toNat - '0'.toNat)) 0

/-- Python `float()` restricted to the capture alphabet `[\d\.]`:
it succeeds exactly when the string has at least one digit and at most
one dot, and then denotes the evident decimal value (modelled exactly
in `ℚ`; the fraction-free case is split out so that integer captures
denote plain numerals). -/
def pyFloat (s : List Char) : Option ℚ :=
  if s.any Char.isDigit && (s.filter (· = '.')).length ≤ 1 then
    let intPart := s.takeWhile (· ≠ '.')
    let fracPart := (s.dropWhile (· ≠ '.')).drop 1
    if fracPart = [] then
      some (natOfDigits intPart : ℚ)
    else
      some ((natOfDigits intPart : ℚ) + (natOfDigits fracPart : ℚ) / (10 : ℚ) ^ fracPart.length)
  else
    none

/-- The pattern loop of `_parse_financial_data`: for each pattern, the
first match's second group is parsed; a `ValueError` is skipped
(`continue`), so each pattern contributes at most one entry, in source
order. -/
def extractLabeled (text : List Char) : List (String × ℚ) :=
  labelPatterns.filterMap fun p =>
    (searchPattern p.1 text).bind fun g => (pyFloat g).map fun v => (p.2, v)

/-- The unit alternatives of the loose pattern
`([\d\.]+)\s*(?:亿元|亿|%|percent|million|billion)`, in source order. -/
def unitAlts : List (List Char) :=
  ["亿元".data, "亿".data, "%".data, "percent".data, "million".data, "billion".data]

/-- Try the loose pattern anchored at the head of `s`; on success return
the capture group and the suffix after the whole match (greediness again
never has to backtrack: units and spaces start with no `[\d\.]`
character). -/
def looseMatchAt (s : List Char) : Option (List Char × List Char) :=
  let num := s.takeWhile isNumChar
  if num = [] then none
  else
    let afterSp := (s.dropWhile isNumChar).dropWhile isPySpace
    (unitAlts.findSome? fun u => ciStrip u afterSp).map fun rest => (num, rest)

theorem ciStrip_length_le : ∀ (p s r : List Char), ciStrip p s = some r → r.length ≤ s.length
  | [], s, r, h => by
    simp only [ciStrip, Option.some.injEq] at h
    subst h; exact Nat.le_refl _
  | _ :: _, [], _, h => by simp [ciStrip] at h
  | a :: as, c :: cs, r, h => by
    simp only [ciStrip] at h
    split at h
    · exact Nat.le_succ_of_le (ciStrip_length_le as cs r h)
    · simp at h

theorem dropWhileLenLe (p : Char → Bool) : ∀ s : List Char, (s.dropWhile p).length ≤ s.length
  | [] => Nat.le_refl _
  | c :: cs => by
    by_cases h : p c
    · simp only [List.dropWhile_cons, h, if_true]
      exact Nat.le_succ_of_le (dropWhileLenLe p cs)
    · simp [List.dropWhile_cons, h]

theorem looseMatchAt_length_lt (s g rest : List Char) (h : looseMatchAt s = some (g, rest)) :
    rest.length < s.length := by
  by_cases hnum : List.takeWhile isNumChar s = []
  · simp [looseMatchAt, hnum] at h
  · simp only [looseMatchAt, hnum, if_false, Option.map_eq_some', Prod.mk.injEq] at h
    obtain ⟨r', hfind, _, hrest⟩ := h
    subst hrest
    obtain ⟨u, _, hci⟩ := List.exists_of_findSome?_eq_some hfind
    have h1 : r'.length ≤ ((s.dropWhile isNumChar).dropWhile isPySpace).length :=
      ciStrip_length_le u _ r' hci
    have h2 : ((s.dropWhile isNumChar).dropWhile isPySpace).length ≤ (s.dropWhile isNumChar).length :=
      dropWhileLenLe _ _
    have h3 : (s.dropWhile isNumChar).length < s.length := by
      cases s with
      | nil => simp at hnum
      | cons c cs =>
        by_cases hc : isNumChar c
        · simp only [List.dropWhile_cons, hc, if_true]
          exact Nat.lt_succ_of_le (dropWhileLenLe _ cs)
        · simp [List.takeWhile_cons, hc] at hnum
    omega

/-- `re.findall` of the loose pattern: scan left to right, emit the
capture of each non-overlapping match, resume after the matched text.
Structural recursion on a step budget: every step strictly shortens the
remaining text (`looseMatchAt_length_lt`), so a budget of one more than
the text length never runs out (`looseFindAllAux_congr` makes the budget
choice irrelevant). -/
def looseFindAllAux : ℕ → List Char → List (List Char)
  | 0, _ => []
  | fuel + 1, s =>
    match looseMatchAt s with
    | some (g, rest) => g :: looseFindAllAux fuel rest
    | none =>
      match s with
      | [] => []
      | _ :: t => looseFindAllAux fuel t

theorem looseFindAllAux_congr : ∀ (f1 : ℕ) (f2 : ℕ) (s : List Char),
    s.length < f1 → s.length < f2 → looseFindAllAux f1 s = looseFindAllAux f2 s
  | 0, _, _, h1, _ => absurd h1 (Nat.not_lt_zero _)
  | _ + 1, 0, _, _, h2 => absurd h2 (Nat.not_lt_zero _)
  | f1 + 1, f2 + 1, s, h1, h2 => by
    simp only [looseFindAllAux]
    cases hm : looseMatchAt s with
    | some p =>
      obtain ⟨g, rest⟩ := p
      have hlt := looseMatchAt_length_lt s g rest hm
      show g :: looseFindAllAux f1 rest = g :: looseFindAllAux f2 rest
      rw [looseFindAllAux_congr f1 f2 rest (by omega) (by omega)]
    | none =>
      cases s with
      | nil => rfl
      | cons c t =>
        simp only [List.length_cons] at h1 h2
        show looseFindAllAux f1 t = looseFindAllAux f2 t
        rw [looseFindAllAux_congr f1 f2 t (by omega) (by omega)]

/-- The full `findall` scan over the whole text. -/
def looseFindAll (s : List Char) : List (List Char) :=
  looseFindAllAux (s.length + 1) s

/-- The positional placeholder names of the loose branch. -/
def predefinedKeys : List String :=
  ["Revenue", "Net Profit", "Gross Margin", "ROE", "Other Metric 1", "Other Metric 2"]

/-- The loose-matching branch: matches are assigned positionally to
`predefinedKeys` (the enumeration index advances even when `float()`
fails, so a bad capture consumes its key slot), stopping at whichever
list is shorter. -/
def extractLoose (text : List Char) : List (String × ℚ) :=
  (predefinedKeys.zip (looseFindAll text)).foldl
    (fun acc kv =>
      match pyFloat kv.2 with
      | some v => acc ++ [(kv.1, v)]
      | none => acc) []

/-- The hard-coded mock data returned when both branches produce
nothing. -/
def placeholderData : List (String × ℚ) :=
  [("Revenue", 8900), ("Net Profit", 800), ("Gross Margin", 45),
   ("ROE", 15), ("Total Assets", 15000), ("Total Liabilities", 7000)]

/-- `_parse_financial_data`: pattern branch, then loose branch, then the
placeholder.  The Python wrapper also catches any exception and returns
the same placeholder; no operation of the embedded body can raise, so the
handler is dead code here and the function is total either way. -/
def parseFinancialData (text : List Char) : List (String × ℚ) :=
  let d1 := extractLabeled text
  if d1 ≠ [] then d1
  else
    let d2 := extractLoose text
    if d2 ≠ [] then d2 else placeholderData

/-! ### Chart data logic (visualization_agent.py) -/

/-- Python's substring test `word in key.lower()` against a list of
lowercase keywords, as used by the pie chart and every dashboard
quadrant. -/
def keyHasAny (words : List String) (key : String) : Bool :=
  words.any fun w => containsChars w.data (lowerChars key.data)

/-- The ratio/percentage keywords of `generate_pie_chart` (line 141). -/
def ratioKeywords : List String := ["margin", "ratio", "roe", "rate"]

/-- The data step of `generate_pie_chart` (lines 138-150): keep the
ratio-keyword entries; if there are none, normalize every value to
`(v / total) * 100`.  When the total is zero and the mapping is
non-empty, the first comprehension step raises `ZeroDivisionError`
(caught by the function's handler, which returns an error record):
modelled as `none`.  An empty mapping runs the comprehension zero times
and yields an empty slice list. -/
def pieSlices (data : List (String × ℚ)) : Option (List (String × ℚ)) :=
  let percentageData := data.filter fun kv => keyHasAny ratioKeywords kv.1
  if percentageData ≠ [] then
    some percentageData
  else if data = [] then
    some []
  else
    let total := (data.map Prod.snd).sum
    if total = 0 then none
    else some (data.map fun kv => (kv.1, kv.2 / total * 100))

/-- Quadrant 1 of `generate_metrics_dashboard`: profitability filter
(lines 189-190). -/
def profitMetrics (m : List (String × ℚ)) : List (String × ℚ) :=
  m.filter fun kv => keyHasAny ["revenue", "profit", "margin"] kv.1

/-- Quadrant 2: growth filter, falling back to all metrics
(lines 198-202). -/
def growthSelection (m : List (String × ℚ)) : List (String × ℚ) :=
  let g := m.filter fun kv => keyHasAny ["growth", "increase"] kv.1
  if g = [] then m else g

/-- Quadrant 3: structure filter, falling back to the slice
`items[:min(4, len(items))]` (lines 210-215). -/
def structureSelection (m : List (String × ℚ)) : List (String × ℚ) :=
  let s := m.filter fun kv => keyHasAny ["debt", "asset", "equity"] kv.1
  if s = [] then m.take (min 4 m.length) else s

/-- Quadrant 4: efficiency filter, falling back to the slice
`items[-min(4, len(items)):]` (lines 223-228; Python's `l[-k:]` for
`0 ≤ k ≤ len(l)` is `drop (len - k)`, and `l[-0:]` is the whole list,
which for the empty list is again `[]`). -/
def efficiencySelection (m : List (String × ℚ)) : List (String × ℚ) :=
  let e := m.filter fun kv => keyHasAny ["roe", "roa", "efficiency"] kv.1
  if e = [] then m.drop (m.length - min 4 m.length) else e

/-- What `generate_metrics_dashboard` draws: per quadrant, the bar data
if its guarding `if` fires, `none` if the quadrant stays empty.  The
matplotlib drawing itself is external; the record holds exactly the
key/value lists handed to `axes[i,j].bar`. -/
structure DashboardQuadrants where
  profitability : Option (List (String × ℚ))
  growth : Option (List (String × ℚ))
  finStructure : Option (List (String × ℚ))
  efficiency : Option (List (String × ℚ))
  deriving DecidableEq, Repr

/-- The quadrant logic of `generate_metrics_dashboard` (lines 182-233). -/
def generateMetricsDashboard (m : List (String × ℚ)) : DashboardQuadrants :=
  { profitability := if profitMetrics m ≠ [] then some (profitMetrics m) else none
    growth := if growthSelection m ≠ [] then some (growthSelection m) else none
    finStructure := if structureSelection m ≠ [] then some (structureSelection m) else none
    efficiency := if efficiencySelection m ≠ [] then some (efficiencySelection m) else none }

/-- The synthetic quarterly series built by the line-chart branch of
`_generate_specific_chart` (lines 356-365): with at least four metrics,
the first four entries are relabelled `Q1 <key>` … `Q4 <key>`; otherwise
one point per existing value, labelled `Q1`, `Q2`, …. -/
def quarterlyData (parsed : List (String × ℚ)) : List (String × ℚ) :=
  if 4 ≤ parsed.length then
    (List.enumFrom 1 (parsed.take 4)).map fun ir =>
      ("Q" ++ toString ir.1 ++ " " ++ ir.2.1, ir.2.2)
  else
    (List.enumFrom 1 ((parsed.map Prod.snd).take (min 4 parsed.length))).map fun iv =>
      ("Q" ++ toString iv.1, iv.2)

/-- The branch taken by the `if/elif` keyword chain of
`_generate_specific_chart` (lines 346-390).  The final `else` also calls
the bar-chart renderer, but with a different title, so it is kept as a
separate branch. -/
inductive ChartBranch
  | bar
  | line
  | pie
  | dashboard
  | defaultBar
  deriving DecidableEq, Repr

/-- The renderer ultimately invoked by each branch. -/
inductive RenderKind
  | bar
  | line
  | pie
  | dashboard
  deriving DecidableEq, Repr

/-- The keyword dispatch of `_generate_specific_chart` on
`chart_type.lower()`. -/
def chartDispatch (chartType : String) : ChartBranch :=
  let s := lowerChars chartType.data
  if containsChars "bar".data s || containsChars "柱".data s then .bar
  else if containsChars "line".data s || containsChars "折线".data s then .line
  else if containsChars "pie".data s || containsChars "饼".data s then .pie
  else if containsChars "dashboard".data s || containsChars "仪表".data s then .dashboard
  else .defaultBar

/-- Which renderer each branch calls: the fall-through `else` branch
(line 384-390) calls `generate_bar_chart` like the explicit bar
branch. -/
def branchRenderer : ChartBranch → RenderKind
  | .bar => .bar
  | .line => .line
  | .pie => .pie
  | .dashboard => .dashboard
  | .defaultBar => .bar

/-- The outcome of `generate_chart` as far as its control flow goes:
either the fixed insufficient-data failure string (returned before any
drawing happens), or a render of the dispatched branch on the parsed
data.  The success/failure message formatting around the render is
external presentation. -/
inductive ChartOutcome
  | insufficient (msg : String)
  | rendered (branch : ChartBranch) (data : List (String × ℚ))
  deriving DecidableEq, Repr

/-- The insufficient-data message of `generate_chart` (line 406). -/
def insufficientMsg : String :=
  "❌ Cannot extract sufficient financial information from provided data for chart generation."

/-- `generate_chart` (lines 396-429): parse, guard
`not parsed_data or len(parsed_data) < 2` (equivalent to `len < 2`),
then dispatch.  -/
def generateChart (dataSummary : List Char) (chartType : String) : ChartOutcome :=
  let parsed := parseFinancialData dataSummary
  if parsed.length < 2 then .insufficient insufficientMsg
  else .rendered (chartDispatch chartType) parsed

/-! ### Web search client (web_search_agent.py) -/

/-- One parsed search result record (title/link/abstract/source),
exactly the dictionaries built by `_parse_single_result`,
`_parse_backup_results` and `_get_fallback_results`. -/
structure SearchResult where
  title : String
  link : String
  abstract : String
  source : String
  deriving DecidableEq, Repr

/-- The dedup-and-cap tail of `_parse_baidu_results_optimized`
(lines 86-94): walk the parsed list keeping the first item of each
title, then cap at 8. -/
def dedupAux (seen : List String) : List SearchResult → List SearchResult
  | [] => []
  | r :: rs =>
    if seen.contains r.title then dedupAux seen rs
    else r :: dedupAux (r.title :: seen) rs

/-- `unique_results[:8]` after the `seen_titles` loop. -/
def dedupResults (results : List SearchResult) : List SearchResult :=
  (dedupAux [] results).take 8

/-- `_parse_baidu_results_optimized`, with the HTML document abstracted
by the list of raw result records the selector cascade (lines 59-84,
driving BeautifulSoup queries on the fetched page, with the backup pass
of `_parse_backup_results` when the cascade finds nothing) extracts from
it; the repository logic that remains on this side of the boundary is
the dedup-and-cap step. -/
def parseBaiduResultsOptimized (raw : List SearchResult) : List SearchResult :=
  dedupResults raw

/-- The observable outcome of `self.session.get(...)` together with the
HTML parse of its body: either an exception from the HTTP client, or a
status code with the raw (pre-dedup) result records scraped from the
body. -/
inductive HttpOutcome
  | netError (msg : String)
  | response (status : ℕ) (raw : List SearchResult)
  deriving DecidableEq, Repr

/-- `response.raise_for_status()`: the `requests` library raises
`HTTPError` exactly for client-error (4xx) and server-error (5xx)
status codes. -/
def raiseForStatus (status : ℕ) : Except String Unit :=
  if 400 ≤ status ∧ status < 600 then Except.error "HTTPError" else Except.ok ()

/-- The fixed single fallback of `_get_fallback_results`
(lines 243-252). -/
def getFallbackResults (query : String) : List SearchResult :=
  [{ title := "关于'" ++ query ++ "'的搜索结果"
     link := "https://www.baidu.com"
     abstract := "由于网络或解析问题，无法获取'" ++ query ++
       "'的实时搜索结果。建议直接访问百度搜索查看最新信息。"
     source := "系统提示" }]

/-- The `try` body of `search_baidu` (lines 31-48): GET, raise on error
status, parse.  Any raised exception is the `.error` case. -/
def searchBaiduTry (outcome : HttpOutcome) : Except String (List SearchResult) :=
  match outcome with
  | .netError m => Except.error m
  | .response status raw => do
    let _ ← raiseForStatus status
    pure (parseBaiduResultsOptimized raw)

/-- `search_baidu` (lines 29-53): the body with its all-exceptions
handler, which substitutes the fixed fallback list. -/
def searchBaidu (query : String) (outcome : HttpOutcome) : List SearchResult :=
  match searchBaiduTry outcome with
  | .ok r => r
  | .error _ => getFallbackResults query

/-- One numbered block of `format_search_results`'s loop (lines
265-268). -/
def formatItem (i : ℕ) (r : SearchResult) : String :=
  toString i ++ ". 📰 " ++ r.title ++ "\n" ++
  "   摘要: " ++ r.abstract ++ "\n" ++
  "   来源: " ++ r.source ++ "\n\n"

/-- The financial-query keywords of `format_search_results`
(line 271). -/
def financialKeywords : List String :=
  ["财务", "财报", "收入", "利润", "年报", "季度报告"]

/-- `format_search_results` (lines 254-277): empty list → "no results"
line; the single system-notice fallback → "search tip" line; otherwise
the numbered top-5 block followed by one of two disclaimers. -/
def formatSearchResults (results : List SearchResult) (query : String) : String :=
  match results with
  | [] => "🔍🔍 未找到关于'" ++ query ++ "'的相关结果"
  | r :: rs =>
    if rs = [] ∧ r.source = "系统提示" then
      "【搜索提示】: " ++ r.abstract
    else
      "【百度搜索: " ++ query ++ "】\n\n" ++
      ((List.enumFrom 1 (results.take 5)).foldl
        (fun acc ir => acc ++ formatItem ir.1 ir.2) "") ++
      (if financialKeywords.any (fun kw => containsChars kw.data query.data) then
        "💡💡 财务信息提示: 以上信息来自公开搜索，请以公司官方公告为准"
      else
        "💡💡 提示: 以上信息来自百度搜索，请谨慎参考其准确性")

/-- `async_search` (lines 279-283): `search_baidu` offloaded to an
executor (same value, no added control flow), then formatted. -/
def asyncSearch (query : String) (outcome : HttpOutcome) : String :=
  formatSearchResults (searchBaidu query outcome) query

/-! ### Claims about the extractor -/

/-- C1: on any input text on which none of the seven bilingual label
patterns matches and the loose number-plus-unit pattern finds no match,
`_parse_financial_data` returns exactly the six-entry placeholder
mapping {Revenue 8900, Net Profit 800, Gross Margin 45, ROE 15,
Total Assets 15000, Total Liabilities 7000}; being a total function it
in particular never fails and always returns a mapping. -/
theorem parse_no_match_placeholder (text : List Char)
    (h1 : ∀ p ∈ labelPatterns, searchPattern p.1 text = none)
    (h2 : looseFindAll text = []) :
    parseFinancialData text = placeholderData := by
  have e1 : extractLabeled text = [] := by
    refine List.filterMap_eq_nil_iff.mpr fun p hp => ?_
    rw [h1 p hp]
    rfl
  have e2 : extractLoose text = [] := by
    unfold extractLoose
    rw [h2, List.zip_nil_right]
    rfl
  simp [parseFinancialData, e1, e2]

/-- Witness for C1 at a text with no labels and no unit-suffixed
numbers. -/
theorem parse_no_match_placeholder_spot :
    parseFinancialData "该公司经营稳定".data = placeholderData :=
  parse_no_match_placeholder _ (by decide) (by decide)

/-- C2: whenever one of the bilingual label patterns matches the input
text (leftmost match) and its captured number parses as a float, the
extractor's output binds that pattern's canonical key to the parsed
value — independently of how the other patterns fare, so one pattern's
failed parse never aborts the others. -/
theorem parse_label_extracted (text : List Char) (alts : List (List Char)) (key : String)
    (g : List Char) (v : ℚ)
    (hp : (alts, key) ∈ labelPatterns)
    (hs : searchPattern alts text = some g)
    (hv : pyFloat g = some v) :
    (key, v) ∈ parseFinancialData text := by
  have hmem : (key, v) ∈ extractLabeled text :=
    List.mem_filterMap.mpr ⟨(alts, key), hp, by simp [hs, hv]⟩
  have hne : extractLabeled text ≠ [] := by
    intro h
    rw [h] at hmem
    exact List.not_mem_nil _ hmem
  simpa [parseFinancialData, hne] using hmem

/-- Witness for C2 on the spec's own end-to-end example text. -/
theorem parse_label_extracted_spot :
    ("Revenue", (8900 : ℚ)) ∈ parseFinancialData "营业收入：8900 净利润:800".data :=
  parse_label_extracted _ ["营业收入".data, "Revenue".data] "Revenue" "8900".data 8900
    (by decide) (by decide) (by decide)

/-! ### Claims about the chart dispatcher and entry point -/

/-- C9: a chart-type string whose lowercase form contains none of the
eight recognized keywords falls through to the final `else` branch, and
that branch invokes the bar-chart renderer — an unrecognized chart kind
silently produces a bar chart rather than failing. -/
theorem dispatch_unrecognized_bar (ct : String)
    (h : ∀ kw ∈ ["bar", "柱", "line", "折线", "pie", "饼", "dashboard", "仪表"],
      containsChars kw.data (lowerChars ct.data) = false) :
    chartDispatch ct = ChartBranch.defaultBar ∧
      branchRenderer (chartDispatch ct) = RenderKind.bar := by
  have hd : chartDispatch ct = ChartBranch.defaultBar := by
    unfold chartDispatch
    simp [h "bar" (by simp), h "柱" (by simp), h "line" (by simp), h "折线" (by simp),
      h "pie" (by simp), h "饼" (by simp), h "dashboard" (by simp), h "仪表" (by simp)]
  exact ⟨hd, by rw [hd]; rfl⟩

/-- Witness for C9 at the unrecognized chart kind "scatter". -/
theorem dispatch_unrecognized_bar_spot :
    chartDispatch "scatter" = ChartBranch.defaultBar ∧
      branchRenderer (chartDispatch "scatter") = RenderKind.bar :=
  dispatch_unrecognized_bar "scatter" (by decide)

/-- C10: whenever the extractor returns a mapping with fewer than two
entries, `generate_chart` returns the insufficient-data failure string
without dispatching any renderer — the extractor's never-fail guarantee
does not make chart generation always proceed. -/
theorem generate_chart_insufficient (text : List Char) (ct : String)
    (h : (parseFinancialData text).length < 2) :
    generateChart text ct = ChartOutcome.insufficient insufficientMsg := by
  unfold generateChart
  simp [h]

/-- Witness for C10, with the reachability the claim describes: on the
text "5亿" no label pattern matches and the loose fallback finds exactly
the one unit-suffixed number, so the parse has a single entry and the
chart entry point fails with the insufficient-data string. -/
theorem generate_chart_insufficient_spot :
    parseFinancialData "5亿".data = [("Revenue", 5)] ∧
      generateChart "5亿".data "bar" = ChartOutcome.insufficient insufficientMsg :=
  ⟨by decide, generate_chart_insufficient _ "bar" (by decide)⟩

/-! ### Claims about the dashboard and the line-chart series -/

/-- C6: each of the four dashboard quadrants draws bars exactly when its
keyword-filtered subset, after its fallback selection, is non-empty; and
the structure/efficiency fallback slices are total operations that stay
inside the mapping, so with fewer than four entries (where the two
slices overlap) nothing can raise. -/
theorem dashboard_quadrant_guards (m : List (String × ℚ)) :
    ((generateMetricsDashboard m).profitability.isSome ↔ profitMetrics m ≠ []) ∧
    ((generateMetricsDashboard m).growth.isSome ↔ growthSelection m ≠ []) ∧
    ((generateMetricsDashboard m).finStructure.isSome ↔ structureSelection m ≠ []) ∧
    ((generateMetricsDashboard m).efficiency.isSome ↔ efficiencySelection m ≠ []) ∧
    (m.length < 4 → (structureSelection m).Sublist m ∧ (efficiencySelection m).Sublist m) := by
  refine ⟨?_, ?_, ?_, ?_, ?_⟩
  · by_cases h : profitMetrics m = [] <;> simp [generateMetricsDashboard, h]
  · by_cases h : growthSelection m = [] <;> simp [generateMetricsDashboard, h]
  · by_cases h : structureSelection m = [] <;> simp [generateMetricsDashboard, h]
  · by_cases h : efficiencySelection m = [] <;> simp [generateMetricsDashboard, h]
  · intro _
    constructor
    · by_cases h : (m.filter fun kv => keyHasAny ["debt", "asset", "equity"] kv.1) = []
      · simpa [structureSelection, h] using List.take_sublist (min 4 m.length) m
      · simp [structureSelection, h]
    · by_cases h : (m.filter fun kv => keyHasAny ["roe", "roa", "efficiency"] kv.1) = []
      · simpa [efficiencySelection, h] using List.drop_sublist (m.length - min 4 m.length) m
      · simp [efficiencySelection, h]

/-- Witness for C6 at a two-entry mapping: with fewer than four entries
both fallback slices are (overlapping) sublists of the mapping and no
quadrant computation fails. -/
theorem dashboard_quadrant_guards_spot :
    (structureSelection [("总资产", (15000 : ℚ)), ("ROE", 15)]).Sublist
        [("总资产", (15000 : ℚ)), ("ROE", 15)] ∧
      (efficiencySelection [("总资产", (15000 : ℚ)), ("ROE", 15)]).Sublist
        [("总资产", (15000 : ℚ)), ("ROE", 15)] :=
  (dashboard_quadrant_guards [("总资产", 15000), ("ROE", 15)]).2.2.2.2 (by decide)

theorem mapSndQuarterly (n : ℕ) (t : List (String × ℚ)) :
    (((List.enumFrom n t).map fun ir =>
        (("Q" ++ toString ir.1 ++ " " ++ ir.2.1 : String), ir.2.2)).map Prod.snd) =
      t.map Prod.snd := by
  induction t generalizing n with
  | nil => rfl
  | cons x xs ih => simp [List.enumFrom, ih]

/-- C7: the line-chart branch builds a synthetic quarterly series — with
at least four parsed metrics, exactly the first four entries survive,
relabelled "Q1 <label>" … "Q4 <label>" with their values kept; with
fewer, the series has one point per existing value, labelled "Q1",
"Q2", … in order. -/
theorem line_quarterly_series (parsed : List (String × ℚ)) :
    (4 ≤ parsed.length →
      (quarterlyData parsed).length = 4 ∧
      (quarterlyData parsed).map Prod.snd = (parsed.take 4).map Prod.snd ∧
      (quarterlyData parsed).map Prod.fst =
        (List.enumFrom 1 (parsed.take 4)).map fun ir => "Q" ++ toString ir.1 ++ " " ++ ir.2.1) ∧
    (parsed.length < 4 →
      (quarterlyData parsed).length = parsed.length ∧
      (quarterlyData parsed).map Prod.snd = parsed.map Prod.snd ∧
      (quarterlyData parsed).map Prod.fst =
        (List.range' 1 parsed.length).map fun i => "Q" ++ toString i) := by
  constructor
  · intro h
    have ht : (parsed.take 4).length = 4 := by
      rw [List.length_take]
      omega
    unfold quarterlyData
    rw [if_pos h]
    refine ⟨?_, mapSndQuarterly 1 (parsed.take 4), ?_⟩
    · rw [List.length_map, List.enumFrom_length, ht]
    · rw [List.map_map]
      rfl
  · intro h
    have htake : (parsed.map Prod.snd).take (min 4 parsed.length) = parsed.map Prod.snd := by
      have hmin : min 4 parsed.length = parsed.length := by omega
      rw [hmin, ← List.length_map parsed Prod.snd, List.take_length]
    unfold quarterlyData
    rw [if_neg (by omega), htake]
    refine ⟨?_, ?_, ?_⟩
    · rw [List.length_map, List.enumFrom_length, List.length_map]
    · rw [List.map_map]
      have hcomp : (Prod.snd ∘ fun iv : ℕ × ℚ => (("Q" ++ toString iv.1 : String), iv.2)) =
          Prod.snd := by
        funext iv
        rfl
      rw [hcomp, List.enumFrom_map_snd]
    · rw [List.map_map]
      have hcomp : (Prod.fst ∘ fun iv : ℕ × ℚ => (("Q" ++ toString iv.1 : String), iv.2)) =
          (fun i => "Q" ++ toString i) ∘ Prod.fst := by
        funext iv
        rfl
      rw [hcomp, ← List.map_map, List.enumFrom_map_fst, List.length_map]

/-- Witness for C7: the six-entry placeholder mapping takes the
first-four branch; a two-entry mapping takes the one-point-per-value
branch. -/
theorem line_quarterly_series_spot :
    (quarterlyData placeholderData).length = 4 ∧
      (quarterlyData [("Revenue", (8900 : ℚ)), ("Net Profit", 800)]).length = 2 :=
  ⟨((line_quarterly_series placeholderData).1 (by decide)).1,
   by
    have hl := ((line_quarterly_series [("Revenue", (8900 : ℚ)), ("Net Profit", 800)]).2
      (by decide)).1
    simpa using hl⟩

/-! ### Claims about the search client -/

/-- C3 counterexample: a response with the non-200 status 204 and a body
from which the parse cascade scrapes nothing makes `search_baidu` return
the empty list, not a one-item system-notice fallback — because
`raise_for_status` raises only for 4xx/5xx statuses, a non-error
non-200 status takes the normal parse path. -/
theorem search_fallback_cex :
    searchBaidu "股票" (HttpOutcome.response 204 []) = [] ∧
      (searchBaidu "股票" (HttpOutcome.response 204 [])).length ≠ 1 ∧
      (204 : ℕ) ≠ 200 := by
  decide

/-- C3 as amended: whenever the GET raises a network exception or the
response status is 4xx/5xx (exactly the statuses `raise_for_status`
raises for), `search_baidu` returns exactly one fallback result item
whose source field is "系统提示". -/
theorem search_fallback (query : String) (outcome : HttpOutcome)
    (h : (∃ m, outcome = HttpOutcome.netError m) ∨
      ∃ s raw, outcome = HttpOutcome.response s raw ∧ 400 ≤ s ∧ s < 600) :
    searchBaidu query outcome = getFallbackResults query ∧
      (searchBaidu query outcome).length = 1 ∧
      ∀ r ∈ searchBaidu query outcome, r.source = "系统提示" := by
  have hfb : searchBaidu query outcome = getFallbackResults query := by
    rcases h with ⟨m, rfl⟩ | ⟨s, raw, rfl, hs1, hs2⟩
    · rfl
    · have hrs : raiseForStatus s = Except.error "HTTPError" := by
        unfold raiseForStatus
        rw [if_pos ⟨hs1, hs2⟩]
      have hTry : searchBaiduTry (HttpOutcome.response s raw) = Except.error "HTTPError" := by
        show (do
          let _ ← raiseForStatus s
          pure (parseBaiduResultsOptimized raw) : Except String (List SearchResult)) =
            Except.error "HTTPError"
        rw [hrs]
        rfl
      unfold searchBaidu
      rw [hTry]
  refine ⟨hfb, by rw [hfb]; rfl, ?_⟩
  rw [hfb]
  intro r hr
  simp only [getFallbackResults, List.mem_singleton] at hr
  rw [hr]

/-- Witness for C3's amended statement at a 500 response. -/
theorem search_fallback_spot :
    searchBaidu "财报" (HttpOutcome.response 500 []) = getFallbackResults "财报" ∧
      (searchBaidu "财报" (HttpOutcome.response 500 [])).length = 1 ∧
      ∀ r ∈ searchBaidu "财报" (HttpOutcome.response 500 []), r.source = "系统提示" :=
  search_fallback "财报" _ (Or.inr ⟨500, [], rfl, by decide, by decide⟩)

/-- C8: the search entry point always returns human-readable text and
lets no exception escape: every exception inside the `search_baidu` try
body (network error or raised HTTP status) terminates in the single
canned fallback text — no retry beyond that one fixed fallback — and
every success terminates in the formatted result text. -/
theorem async_search_total (query : String) (outcome : HttpOutcome) :
    (∀ m, searchBaiduTry outcome = Except.error m →
      asyncSearch query outcome =
        "【搜索提示】: 由于网络或解析问题，无法获取'" ++ query ++
          "'的实时搜索结果。建议直接访问百度搜索查看最新信息。") ∧
    ∀ rs, searchBaiduTry outcome = Except.ok rs →
      asyncSearch query outcome = formatSearchResults rs query := by
  constructor
  · intro m hm
    unfold asyncSearch searchBaidu
    rw [hm]
    rfl
  · intro rs hrs
    unfold asyncSearch searchBaidu
    rw [hrs]

/-- Witness for C8 at a timed-out GET. -/
theorem async_search_total_spot :
    asyncSearch "测试" (HttpOutcome.netError "timeout") =
      "【搜索提示】: 由于网络或解析问题，无法获取'测试'的实时搜索结果。建议直接访问百度搜索查看最新信息。" :=
  (async_search_total "测试" (HttpOutcome.netError "timeout")).1 "timeout" rfl

/-! ### Claims about the pie chart -/

theorem sum_map_div_mul (l : List ℚ) (T : ℚ) :
    (l.map fun v => v / T * 100).sum = l.sum / T * 100 := by
  induction l with
  | nil => simp
  | cons x xs ih =>
    simp only [List.map_cons, List.sum_cons, ih]
    ring

/-- C4 counterexample: a keyword-free mapping whose values sum to zero
(reachable from the extractor, whose captures can be zero) makes the pie
path hit `ZeroDivisionError` in the normalizing comprehension — caught
by the handler into an error record — instead of producing slices that
sum to 100. -/
theorem pie_zero_total_cex :
    (∀ kv ∈ ([("Revenue", 0), ("Net Profit", 0)] : List (String × ℚ)),
      keyHasAny ratioKeywords kv.1 = false) ∧
      pieSlices [("Revenue", 0), ("Net Profit", 0)] = none := by
  constructor
  · decide
  · have hfil : (([("Revenue", (0 : ℚ)), ("Net Profit", 0)]).filter fun kv =>
        keyHasAny ratioKeywords kv.1) = [] := by decide
    simp [pieSlices, hfil]

/-- C4 as amended: for every mapping in which no key contains a ratio
keyword and whose values sum to a nonzero total, the pie path normalizes
every value to `(value / total) * 100` and the resulting slice values
sum to exactly 100 (exactly, in this exact-arithmetic model; ~100 under
floating point). -/
theorem pie_normalized_sum (data : List (String × ℚ))
    (h1 : ∀ kv ∈ data, keyHasAny ratioKeywords kv.1 = false)
    (h2 : (data.map Prod.snd).sum ≠ 0) :
    pieSlices data =
        some (data.map fun kv => (kv.1, kv.2 / (data.map Prod.snd).sum * 100)) ∧
      ((data.map fun kv => (kv.1, kv.2 / (data.map Prod.snd).sum * 100)).map Prod.snd).sum
        = 100 := by
  have hfil : (data.filter fun kv => keyHasAny ratioKeywords kv.1) = [] := by
    refine List.filter_eq_nil_iff.mpr fun kv hkv => ?_
    simp [h1 kv hkv]
  have hne : data ≠ [] := by
    rintro rfl
    simp at h2
  constructor
  · simp [pieSlices, hfil, hne, h2]
  · have hmm : ((data.map fun kv => (kv.1, kv.2 / (data.map Prod.snd).sum * 100)).map Prod.snd)
        = (data.map Prod.snd).map fun v => v / (data.map Prod.snd).sum * 100 := by
      rw [List.map_map, List.map_map]
      rfl
    rw [hmm, sum_map_div_mul, div_self h2, one_mul]

/-- Witness for C4's amended statement at a one-entry keyword-free
mapping. -/
theorem pie_normalized_sum_spot :
    pieSlices [("Revenue", (100 : ℚ))] =
        some ([("Revenue", (100 : ℚ))].map fun kv =>
          (kv.1, kv.2 / ([("Revenue", (100 : ℚ))].map Prod.snd).sum * 100)) ∧
      (([("Revenue", (100 : ℚ))].map fun kv =>
          (kv.1, kv.2 / ([("Revenue", (100 : ℚ))].map Prod.snd).sum * 100)).map Prod.snd).sum
        = 100 :=
  pie_normalized_sum [("Revenue", 100)] (by decide) (by simp)

/-! ### The dedup claim for the search result parser -/

/-- The specification-side reading of the dedup contract ("deduplicates
by exact title match, preserving first-seen order"): keep each item and
drop every later item carrying the same title.  Stated from the spec's
words, to be compared with the source's accumulator loop `dedupAux`. -/
def firstSeen : List SearchResult → List SearchResult
  | [] => []
  | r :: rs => r :: firstSeen (rs.filter fun x => x.title ≠ r.title)
termination_by l => l.length
decreasing_by
  simp only [List.length_cons]
  exact Nat.lt_succ_of_le (List.length_filter_le _ _)

theorem dedupAuxEqFirstSeen :
    ∀ (n : ℕ) (rs : List SearchResult), rs.length ≤ n → ∀ seen : List String,
      dedupAux seen rs = firstSeen (rs.filter fun x => !seen.contains x.title)
  | _, [], _, seen => by simp [dedupAux, firstSeen]
  | 0, r :: rs, h, seen => absurd h (by simp)
  | n + 1, r :: rs, h, seen => by
    simp only [List.length_cons, Nat.succ_le_succ_iff] at h
    by_cases hc : seen.contains r.title
    · have hm : r.title ∈ seen := by simpa using hc
      rw [show dedupAux seen (r :: rs) = dedupAux seen rs by simp [dedupAux, hm]]
      rw [List.filter_cons, if_neg (by simp [hm])]
      exact dedupAuxEqFirstSeen n rs h seen
    · have hm : r.title ∉ seen := by simpa using hc
      rw [show dedupAux seen (r :: rs) = r :: dedupAux (r.title :: seen) rs by
        simp [dedupAux, hm]]
      rw [List.filter_cons, if_pos (by simp [hm])]
      rw [show firstSeen (r :: rs.filter fun x => !seen.contains x.title) =
          r :: firstSeen ((rs.filter fun x => !seen.contains x.title).filter
            fun x => x.title ≠ r.title) from by rw [firstSeen]]
      rw [List.filter_filter]
      rw [dedupAuxEqFirstSeen n rs h (r.title :: seen)]
      congr 1
      apply congrArg
      apply List.filter_congr
      intro x _
      simp [List.contains_cons, Bool.not_or, decide_not, Bool.and_comm]

theorem firstSeenSublist :
    ∀ (n : ℕ) (rs : List SearchResult), rs.length ≤ n → (firstSeen rs).Sublist rs
  | _, [], _ => by simp [firstSeen]
  | 0, r :: rs, h => absurd h (by simp)
  | n + 1, r :: rs, h => by
    simp only [List.length_cons, Nat.succ_le_succ_iff] at h
    rw [show firstSeen (r :: rs) =
        r :: firstSeen (rs.filter fun x => x.title ≠ r.title) from by rw [firstSeen]]
    refine List.Sublist.cons₂ r ?_
    exact (firstSeenSublist n _ (le_trans (List.length_filter_le _ _) h)).trans
      (List.filter_sublist rs)

theorem firstSeenTitlesNodup :
    ∀ (n : ℕ) (rs : List SearchResult), rs.length ≤ n →
      ((firstSeen rs).map SearchResult.title).Nodup
  | _, [], _ => by simp [firstSeen]
  | 0, r :: rs, h => absurd h (by simp)
  | n + 1, r :: rs, h => by
    simp only [List.length_cons, Nat.succ_le_succ_iff] at h
    rw [show firstSeen (r :: rs) =
        r :: firstSeen (rs.filter fun x => x.title ≠ r.title) from by rw [firstSeen]]
    rw [List.map_cons, List.nodup_cons]
    constructor
    · intro hmem
      obtain ⟨x, hx, htitle⟩ := List.mem_map.mp hmem
      have hxmem : x ∈ rs.filter fun y => y.title ≠ r.title :=
        (firstSeenSublist (rs.filter fun y => y.title ≠ r.title).length _ le_rfl).subset hx
      have hne := List.of_mem_filter hxmem
      simp only [ne_eq, decide_not, Bool.not_eq_true', decide_eq_false_iff_not] at hne
      exact hne htitle
    · exact firstSeenTitlesNodup n _ (le_trans (List.length_filter_le _ _) h)

/-- C5: the final list the result parser returns is the first-seen-order
title dedup of the parsed items capped at 8: it equals the first 8
entries of the first-occurrence subsequence, its titles are pairwise
distinct (of two items with an identical title at most the first
survives), it is an order-preserving sublist of the input, and its
length is at most 8. -/
theorem parse_results_dedup (rs : List SearchResult) :
    parseBaiduResultsOptimized rs = (firstSeen rs).take 8 ∧
      ((parseBaiduResultsOptimized rs).map SearchResult.title).Nodup ∧
      (parseBaiduResultsOptimized rs).Sublist rs ∧
      (parseBaiduResultsOptimized rs).length ≤ 8 := by
  have heq : parseBaiduResultsOptimized rs = (firstSeen rs).take 8 := by
    unfold parseBaiduResultsOptimized dedupResults
    have h := dedupAuxEqFirstSeen rs.length rs le_rfl []
    simp only [List.contains_nil, Bool.not_false, List.filter_true] at h
    rw [h]
  refine ⟨heq, ?_, ?_, ?_⟩
  · rw [heq]
    exact (firstSeenTitlesNodup rs.length rs le_rfl).sublist
      ((List.take_sublist 8 (firstSeen rs)).map SearchResult.title)
  · rw [heq]
    exact (List.take_sublist 8 (firstSeen rs)).trans (firstSeenSublist rs.length rs le_rfl)
  · rw [heq]
    exact List.length_take_le 8 (firstSeen rs)
